import Mathlib

/-!
Shallow embedding of `src/app.py` (a Flask app tracking search-keyword
counts and a Melon music-chart snapshot backed by SQLite), together with
theorems settling the specification claims.

Modelling conventions:
* SQLite tables are Lean lists of rows in rowid (insertion) order.
* Python `str.strip` drops leading and trailing whitespace of the
  character list; Python `str.isdigit` is "non-empty and every character
  a decimal digit" (the source data is ASCII).
* Network interaction is modelled by passing the response as an explicit
  argument (`FetchResponse` / `NaverResponse`); a raised exception inside
  the `try` block is the `exn` constructor.
* SQLite `LIKE` is modelled faithfully: `%` matches any sequence, `_`
  any single character, and letter comparison is ASCII case-insensitive.
* SQL `ORDER BY` is modelled by sorting with a total preorder; ties (which
  SQLite leaves unordered) are resolved by the sort's stability, and no
  theorem depends on the tie order.  String comparison is SQLite's
  BINARY collation, i.e. code-point lexicographic order.
-/

namespace NaverBlogApp

/-- Python `str.strip()` (whitespace at both ends). -/
def pyStrip (s : String) : String :=
  ⟨((s.data.dropWhile Char.isWhitespace).reverse.dropWhile Char.isWhitespace).reverse⟩

/-- Python `str.isdigit()`: non-empty and all characters decimal digits. -/
def pyIsDigit (s : String) : Bool := !s.data.isEmpty && s.data.all Char.isDigit

/-- Python `int(s)` on an all-digit string. -/
def pyInt (s : String) : Nat := s.data.foldl (fun n c => n * 10 + (c.toNat - 48)) 0

/-- A row of the `melon_chart_data` table / a parsed chart item
`{"rank": ..., "title": ..., "artist": ...}`. -/
structure ChartEntry where
  rank : Nat
  title : String
  artist : String
deriving DecidableEq, Repr

/-- One source row selected by `.lst50, .lst100`: the text of the
`.rank`, `.ellipsis.rank01 a` and `.ellipsis.rank02 a` elements,
`none` when the element is absent. -/
structure RawRow where
  rank_el : Option String
  title_el : Option String
  artist_el : Option String
deriving DecidableEq, Repr

/-- `rank = (rank_el.text.strip() if rank_el else "")`. -/
def rowRank (row : RawRow) : String := (row.rank_el.map pyStrip).getD ""

/-- The chart dict built for a row:
`title = (title_el.text.strip() if title_el else "제목 없음")`,
`artist = (artist_el.text.strip() if artist_el else "아티스트 없음")`. -/
def rowEntry (row : RawRow) : ChartEntry :=
  { rank := pyInt (rowRank row)
    title := (row.title_el.map pyStrip).getD "제목 없음"
    artist := (row.artist_el.map pyStrip).getD "아티스트 없음" }

/-- The row loop of `fetch_melon_chart`: append the row's entry when
`rank.isdigit()`, otherwise skip the row and continue. -/
def parseChartRows (rows : List RawRow) : List ChartEntry :=
  rows.foldl
    (fun chart row =>
      if pyIsDigit (rowRank row) then chart ++ [rowEntry row] else chart)
    []

/-- Outcome of `requests.get` on the chart page: a response with a status
code and parsed source rows, or an exception (network error, timeout,
parse failure) raised inside the `try` block. -/
inductive FetchResponse
  | ok (status : Nat) (rows : List RawRow)
  | exn
deriving DecidableEq, Repr

/-- `fetch_melon_chart()`: `[]` on exception and on `status_code != 200`,
otherwise the parsed rows. -/
def fetch_melon_chart : FetchResponse → List ChartEntry
  | .exn => []
  | .ok status rows => if status ≠ 200 then [] else parseChartRows rows

/-- The `melon_chart_data` table, rows in rowid order. -/
abbrev ChartTable := List ChartEntry

/-- One `INSERT OR REPLACE INTO melon_chart_data` statement: the
`UNIQUE(ranking)` constraint deletes any existing row with the same
ranking, and the new row is appended with a fresh rowid. -/
def insertOrReplaceChart (table : ChartTable) (e : ChartEntry) : ChartTable :=
  table.filter (fun x => x.rank ≠ e.rank) ++ [e]

/-- `save_melon_chart_to_db(chart_data)`: `DELETE FROM melon_chart_data`
then insert-or-replace each item in order. -/
def save_melon_chart_to_db (chart_data : List ChartEntry) (_table : ChartTable) :
    ChartTable :=
  chart_data.foldl insertOrReplaceChart []

/-- `ORDER BY ranking ASC`. -/
def rankLe : ChartEntry → ChartEntry → Prop := fun a b => a.rank ≤ b.rank

instance : DecidableRel rankLe := fun a b =>
  inferInstanceAs (Decidable (a.rank ≤ b.rank))

instance : IsTotal ChartEntry rankLe := ⟨fun a b => Nat.le_total a.rank b.rank⟩

instance : IsTrans ChartEntry rankLe := ⟨fun _ _ _ => Nat.le_trans⟩

/-- The `/melon-chart` query:
`SELECT ranking, title, artist FROM melon_chart_data ORDER BY ranking ASC`. -/
def melon_chart (table : ChartTable) : List ChartEntry :=
  table.insertionSort rankLe

/-- The `/update-chart-db` handler: fetch; save only when the result is
non-empty (Python truthiness of the list). -/
def update_chart_db (resp : FetchResponse) (table : ChartTable) : ChartTable :=
  let data := fetch_melon_chart resp
  if data.isEmpty then table else save_melon_chart_to_db data table

/-- The `search_count` table, rows in rowid order. -/
abbrev SearchTable := List (String × Nat)

/-- `increment_search_count(keyword)`:
`UPDATE search_count SET count = count + 1 WHERE keyword = ?`; if
`rowcount == 0` then `INSERT INTO search_count (keyword, count) VALUES (?, 1)`. -/
def increment_search_count (keyword : String) (table : SearchTable) : SearchTable :=
  let updated := table.map (fun r => if r.1 = keyword then (r.1, r.2 + 1) else r)
  let rowcount := (table.filter (fun r => r.1 = keyword)).length
  if rowcount = 0 then table ++ [(keyword, 1)] else updated

/-- `GROUP BY artist` with `COUNT(*)`: one `(artist, song_count)` pair per
distinct artist of the table. -/
def artistCounts (table : ChartTable) : List (String × Nat) :=
  ((table.map (fun e => e.artist)).dedup).map
    (fun a => (a, (table.filter (fun e => e.artist = a)).length))

/-- SQLite BINARY collation: code-point lexicographic order on strings. -/
def chLe : List Char → List Char → Bool
  | [], _ => true
  | _ :: _, [] => false
  | a :: as, b :: bs => if a = b then chLe as bs else decide (a.toNat < b.toNat)

/-- `ORDER BY song_count DESC, artist ASC`. -/
def artistOrder : String × Nat → String × Nat → Prop :=
  fun a b => b.2 < a.2 ∨ (a.2 = b.2 ∧ chLe a.1.data b.1.data = true)

instance : DecidableRel artistOrder := fun _ _ =>
  inferInstanceAs (Decidable (_ ∨ _))

/-- `get_artist_count_ranking(limit)`: group by artist, order by count
descending then artist ascending, `LIMIT ?`. -/
def get_artist_count_ranking (limit : Nat) (table : ChartTable) :
    List (String × Nat) :=
  ((artistCounts table).insertionSort artistOrder).take limit

/-- SQLite `LIKE` character comparison: ASCII case-insensitive
(`Char.toLower` lowercases exactly `A`–`Z`). -/
def sqliteCharEq (p c : Char) : Bool := p.toLower = c.toLower

/-- `%` in a `LIKE` pattern: try the rest of the pattern against every
suffix of the text. -/
def likeStar (matchRest : List Char → Bool) : List Char → Bool
  | [] => matchRest []
  | c :: ts => matchRest (c :: ts) || likeStar matchRest ts

/-- SQLite `LIKE` pattern matching: `%` matches any sequence, `_` any
single character, other pattern characters match ASCII
case-insensitively. -/
def likeMatch : List Char → List Char → Bool
  | [], t => t.isEmpty
  | p :: ps, t =>
    if p = '%' then likeStar (likeMatch ps) t
    else
      match t with
      | [] => false
      | c :: ts =>
        if p = '_' then likeMatch ps ts
        else sqliteCharEq p c && likeMatch ps ts

/-- `artist LIKE ?` with parameter `f"%{query}%"`. -/
def artistLike (query : String) (e : ChartEntry) : Bool :=
  likeMatch ("%" ++ query ++ "%").data e.artist.data

/-- The `/artist-search` handler:
`query = (request.args.get("artist_query") or "").strip()`; when `query`
is non-empty, `SELECT ... WHERE artist LIKE ? ORDER BY ranking ASC` with
pattern `%query%`; otherwise `results = []`. -/
def artist_search (artist_query : Option String) (table : ChartTable) :
    List ChartEntry :=
  let query := pyStrip (artist_query.getD "")
  if query.data.isEmpty then []
  else (table.filter (artistLike query)).insertionSort rankLe

/-- Loading an API credential:
`os.getenv(name, "").strip()` — a missing variable yields `""`. -/
def loadCred (env : Option String) : String := pyStrip (env.getD "")

/-- Outcome of `requests.get` against the Naver API: a response with a
status code and the `items` of its JSON body, or an exception with its
message. -/
inductive NaverResponse
  | ok (status : Nat) (items : List String)
  | exn (msg : String)
deriving DecidableEq, Repr

/-- The dict returned by `search_naver_blog`. -/
structure BlogSearchResult where
  items : List String
  error : Option String
deriving DecidableEq, Repr

/-- `search_naver_blog(query, ...)`: short-circuit when either credential
is empty (Python falsiness of the string); otherwise inspect the
response. -/
def search_naver_blog (clientId clientSecret : String) (_query : String)
    (resp : NaverResponse) : BlogSearchResult :=
  if clientId.data.isEmpty || clientSecret.data.isEmpty then
    { items := [], error := some "NAVER API 키가 없습니다. 환경변수로 설정해주세요." }
  else
    match resp with
    | .ok status items =>
      if status = 200 then { items := items, error := none }
      else { items := [], error := some ("네이버 API 오류: " ++ toString status) }
    | .exn msg => { items := [], error := some ("요청 실패: " ++ msg) }

/-! ### Helper lemmas -/

/-- The parsing loop is a filter (on digit ranks) followed by a map. -/
theorem parseChartRows_eq_filter_map (rows : List RawRow) :
    parseChartRows rows
      = (rows.filter (fun r => pyIsDigit (rowRank r))).map rowEntry := by
  suffices h : ∀ (rs : List RawRow) (acc : List ChartEntry),
      rs.foldl
          (fun chart row =>
            if pyIsDigit (rowRank row) then chart ++ [rowEntry row] else chart)
          acc
        = acc ++ (rs.filter (fun r => pyIsDigit (rowRank r))).map rowEntry by
    simpa using h rows []
  intro rs
  induction rs with
  | nil => intro acc; simp
  | cons r rs ih =>
    intro acc
    by_cases hd : pyIsDigit (rowRank r)
    · simp [List.foldl_cons, hd, ih, List.filter_cons]
    · simp [List.foldl_cons, hd, ih, List.filter_cons]

/-- Inserting an entry whose rank is fresh for the accumulator just
appends it. -/
theorem insertOrReplaceChart_of_fresh (acc : ChartTable) (c : ChartEntry)
    (h : ∀ x ∈ acc, x.rank ≠ c.rank) :
    insertOrReplaceChart acc c = acc ++ [c] := by
  unfold insertOrReplaceChart
  congr 1
  rw [List.filter_eq_self]
  intro x hx
  simpa using h x hx

/-- When all ranks (accumulator and input together) are pairwise
distinct, the save loop appends the input to the accumulator. -/
theorem foldl_insertOrReplace_eq_append (chart : List ChartEntry) :
    ∀ acc : ChartTable, ((acc ++ chart).map (fun e => e.rank)).Nodup →
      chart.foldl insertOrReplaceChart acc = acc ++ chart := by
  induction chart with
  | nil => intro acc _; simp
  | cons c cs ih =>
    intro acc h
    have hdisj : (acc.map (fun e => e.rank)).Disjoint ((c :: cs).map (fun e => e.rank)) := by
      rw [List.map_append] at h
      exact List.disjoint_of_nodup_append h
    have hio : insertOrReplaceChart acc c = acc ++ [c] := by
      refine insertOrReplaceChart_of_fresh acc c (fun x hx hxr => ?_)
      exact hdisj (List.mem_map_of_mem _ hx) (by simp [hxr])
    have h' : (((acc ++ [c]) ++ cs).map (fun e => e.rank)).Nodup := by
      simpa [List.append_assoc] using h
    rw [List.foldl_cons, hio, ih (acc ++ [c]) h']
    simp

/-- Saving a chart whose ranks are pairwise distinct stores exactly that
chart, in order, whatever the store held before. -/
theorem save_of_nodup_ranks (chart : List ChartEntry) (prior : ChartTable)
    (h : (chart.map (fun e => e.rank)).Nodup) :
    save_melon_chart_to_db chart prior = chart := by
  unfold save_melon_chart_to_db
  simpa using foldl_insertOrReplace_eq_append chart [] (by simpa using h)

/-- One insert-or-replace step keeps ranks pairwise distinct. -/
theorem nodup_ranks_insertOrReplaceChart (acc : ChartTable) (c : ChartEntry)
    (h : (acc.map (fun e => e.rank)).Nodup) :
    ((insertOrReplaceChart acc c).map (fun e => e.rank)).Nodup := by
  unfold insertOrReplaceChart
  rw [List.map_append, List.nodup_append]
  refine ⟨?_, by simp, ?_⟩
  · exact (List.Sublist.map _ (List.filter_sublist acc)).nodup h
  · intro r hr
    simp only [List.mem_map] at hr
    obtain ⟨x, hx, hxr⟩ := hr
    have := (List.mem_filter.mp hx).2
    simp only [List.map_cons, List.map_nil, List.mem_singleton]
    intro hc
    rw [hc] at hxr
    simp at this
    exact this hxr

/-- The save loop keeps ranks pairwise distinct. -/
theorem nodup_ranks_foldl_insertOrReplace (chart : List ChartEntry) :
    ∀ acc : ChartTable, (acc.map (fun e => e.rank)).Nodup →
      ((chart.foldl insertOrReplaceChart acc).map (fun e => e.rank)).Nodup := by
  induction chart with
  | nil => intro acc h; simpa using h
  | cons c cs ih =>
    intro acc h
    rw [List.foldl_cons]
    exact ih _ (nodup_ranks_insertOrReplaceChart acc c h)

/-- Rank lookup after one insert-or-replace step: the new entry wins on
its own rank, everything else is looked up in the accumulator. -/
theorem find?_insertOrReplaceChart (acc : ChartTable) (c : ChartEntry) (r : Nat) :
    (insertOrReplaceChart acc c).find? (fun x => x.rank == r)
      = if c.rank = r then some c else acc.find? (fun x => x.rank == r) := by
  induction acc with
  | nil => by_cases h : c.rank = r <;> simp [insertOrReplaceChart, h]
  | cons a as ih =>
    have step : insertOrReplaceChart (a :: as) c
        = if a.rank = c.rank then insertOrReplaceChart as c
          else a :: insertOrReplaceChart as c := by
      by_cases ha : a.rank = c.rank <;>
        simp [insertOrReplaceChart, List.filter_cons, ha]
    rw [step]
    by_cases ha : a.rank = c.rank
    · rw [if_pos ha, ih]
      by_cases h : c.rank = r
      · simp [h]
      · have hna : ¬(a.rank = r) := fun har => h (ha.symm.trans har)
        rw [if_neg h, if_neg h, List.find?_cons_of_neg _ (by simp [hna])]
    · rw [if_neg ha]
      by_cases har : a.rank = r
      · have hcr : ¬(c.rank = r) := fun hc => ha (har.trans hc.symm)
        rw [List.find?_cons_of_pos _ (by simp [har]), if_neg hcr,
          List.find?_cons_of_pos _ (by simp [har])]
      · rw [List.find?_cons_of_neg _ (by simp [har]), ih]
        by_cases h : c.rank = r
        · simp [h]
        · rw [if_neg h, if_neg h, List.find?_cons_of_neg _ (by simp [har])]

/-- Rank lookup after the save loop: the stored row for a rank is the
last input entry with that rank, falling back to the accumulator. -/
theorem find?_foldl_insertOrReplace (chart : List ChartEntry) :
    ∀ (acc : ChartTable) (r : Nat),
      (chart.foldl insertOrReplaceChart acc).find? (fun x => x.rank == r)
        = (chart.reverse.find? (fun x => x.rank == r)).or
            (acc.find? (fun x => x.rank == r)) := by
  induction chart with
  | nil => intro acc r; simp
  | cons c cs ih =>
    intro acc r
    rw [List.foldl_cons, ih, List.reverse_cons, List.find?_append, Option.or_assoc]
    congr 1
    rw [find?_insertOrReplaceChart]
    by_cases h : c.rank = r
    · simp [h]
    · simp [h]

/-- Every row produced by the save loop comes from the accumulator or
from the input chart. -/
theorem mem_foldl_insertOrReplace (chart : List ChartEntry) :
    ∀ (acc : ChartTable) (e : ChartEntry),
      e ∈ chart.foldl insertOrReplaceChart acc → e ∈ acc ∨ e ∈ chart := by
  induction chart with
  | nil => intro acc e h; exact Or.inl h
  | cons c cs ih =>
    intro acc e h
    rw [List.foldl_cons] at h
    rcases ih _ e h with hacc | hcs
    · unfold insertOrReplaceChart at hacc
      rcases List.mem_append.mp hacc with hf | hc
      · exact Or.inl (List.mem_of_mem_filter hf)
      · simp only [List.mem_singleton] at hc
        exact Or.inr (by simp [hc])
    · exact Or.inr (List.mem_cons_of_mem _ hcs)

/-- A keyword absent from the table: the `UPDATE` touches no row
(`rowcount == 0`), so a fresh record with count 1 is appended. -/
theorem increment_insert (keyword : String) (table : SearchTable)
    (h : keyword ∉ table.map Prod.fst) :
    increment_search_count keyword table = table ++ [(keyword, 1)] := by
  unfold increment_search_count
  have hfilter : table.filter (fun r => r.1 = keyword) = [] := by
    rw [List.filter_eq_nil_iff]
    intro r hr
    simp only [decide_eq_true_eq]
    exact fun h1 => h (h1 ▸ List.mem_map_of_mem Prod.fst hr)
  simp [hfilter]

/-- A keyword present exactly once: the `UPDATE` increments that row's
count and leaves every other row unchanged. -/
theorem increment_update (keyword : String) (t1 t2 : SearchTable) (c : Nat)
    (h1 : keyword ∉ t1.map Prod.fst) (h2 : keyword ∉ t2.map Prod.fst) :
    increment_search_count keyword (t1 ++ (keyword, c) :: t2)
      = t1 ++ (keyword, c + 1) :: t2 := by
  unfold increment_search_count
  have hmem : (keyword, c)
      ∈ (t1 ++ (keyword, c) :: t2).filter (fun r => r.1 = keyword) :=
    List.mem_filter.mpr ⟨by simp, by simp⟩
  have hrc : ¬(((t1 ++ (keyword, c) :: t2).filter
      (fun r => r.1 = keyword)).length = 0) := by
    rw [List.length_eq_zero]
    exact List.ne_nil_of_mem hmem
  simp only []
  rw [if_neg hrc, List.map_append, List.map_cons]
  have ht1 : t1.map (fun r => if r.1 = keyword then (r.1, r.2 + 1) else r) = t1 := by
    rw [List.map_congr_left (fun r hr =>
      if_neg (fun he : r.1 = keyword => h1 (he ▸ List.mem_map_of_mem Prod.fst hr)))]
    exact List.map_id t1
  have ht2 : t2.map (fun r => if r.1 = keyword then (r.1, r.2 + 1) else r) = t2 := by
    rw [List.map_congr_left (fun r hr =>
      if_neg (fun he : r.1 = keyword => h2 (he ▸ List.mem_map_of_mem Prod.fst hr)))]
    exact List.map_id t2
  rw [ht1, ht2]
  simp

/-- Iterating the upsert on a table ending in the keyword's record adds
the number of iterations to its count. -/
theorem increment_iterate_aux (keyword : String) (table : SearchTable)
    (h : keyword ∉ table.map Prod.fst) :
    ∀ (n c : Nat), (increment_search_count keyword)^[n] (table ++ [(keyword, c)])
      = table ++ [(keyword, c + n)] := by
  intro n
  induction n with
  | zero => intro c; simp
  | succ m ih =>
    intro c
    rw [Function.iterate_succ_apply]
    have hstep : increment_search_count keyword (table ++ [(keyword, c)])
        = table ++ [(keyword, c + 1)] := by
      simpa using increment_update keyword table [] c h (by simp)
    rw [hstep, ih (c + 1)]
    have : c + 1 + m = c + (m + 1) := by omega
    rw [this]

/-- Code-point lexicographic order on character lists is total. -/
theorem chLe_total : ∀ as bs : List Char, chLe as bs = true ∨ chLe bs as = true := by
  intro as
  induction as with
  | nil => intro bs; left; simp [chLe]
  | cons a as ih =>
    intro bs
    cases bs with
    | nil => right; simp [chLe]
    | cons b bs' =>
      by_cases hab : a = b
      · subst hab
        rcases ih bs' with h | h
        · left; simpa [chLe] using h
        · right; simpa [chLe] using h
      · have hn : a.toNat ≠ b.toNat := fun h =>
          hab (by rw [← Char.ofNat_toNat a, ← Char.ofNat_toNat b, h])
        rcases Nat.lt_or_ge a.toNat b.toNat with h | h
        · left; simp [chLe, hab, h]
        · right
          have hlt : b.toNat < a.toNat := by omega
          have hba : ¬(b = a) := fun he => hab he.symm
          simp [chLe, hba, hlt]

/-- Code-point lexicographic order on character lists is transitive. -/
theorem chLe_trans : ∀ as bs cs : List Char,
    chLe as bs = true → chLe bs cs = true → chLe as cs = true := by
  intro as
  induction as with
  | nil => intro bs cs _ _; simp [chLe]
  | cons a as ih =>
    intro bs cs h1 h2
    cases bs with
    | nil => simp [chLe] at h1
    | cons b bs' =>
      cases cs with
      | nil => simp [chLe] at h2
      | cons c cs' =>
        by_cases hab : a = b <;> by_cases hbc : b = c
        · subst hab; subst hbc
          simp only [chLe, if_pos rfl] at h1 h2 ⊢
          exact ih bs' cs' h1 h2
        · subst hab
          simp only [chLe, if_pos rfl] at h1
          simp only [chLe, if_neg hbc] at h2
          simp [chLe, hbc, h2]
        · subst hbc
          simp only [chLe, if_neg hab] at h1
          simp [chLe, hab, h1]
        · simp only [chLe, if_neg hab] at h1
          simp only [chLe, if_neg hbc] at h2
          simp only [decide_eq_true_eq] at h1 h2
          have hac : a.toNat < c.toNat := h1.trans h2
          have hne : a ≠ c := fun he => by
            rw [he] at h1; omega
          simp [chLe, hne, hac]

instance : IsTotal (String × Nat) artistOrder :=
  ⟨fun a b => by
    unfold artistOrder
    rcases Nat.lt_trichotomy a.2 b.2 with h | h | h
    · right; left; exact h
    · rcases chLe_total a.1.data b.1.data with hc | hc
      · left; right; exact ⟨h, hc⟩
      · right; right; exact ⟨h.symm, hc⟩
    · left; left; exact h⟩

instance : IsTrans (String × Nat) artistOrder :=
  ⟨fun a b c h1 h2 => by
    unfold artistOrder at h1 h2 ⊢
    rcases h1 with h1 | ⟨h1e, h1s⟩ <;> rcases h2 with h2 | ⟨h2e, h2s⟩
    · left; omega
    · left; omega
    · left; omega
    · right; exact ⟨h1e.trans h2e, chLe_trans _ _ _ h1s h2s⟩⟩

/-- Mapping `Prod.fst` over pairs `(a, g a)` recovers the original list. -/
theorem map_fst_pair {α β : Type} (g : α → β) :
    ∀ l : List α, (l.map (fun a => (a, g a))).map Prod.fst = l
  | [] => rfl
  | a :: t => by
    simp only [List.map_cons]
    rw [map_fst_pair g t]

/-- The first components of the grouped pairs are exactly the distinct
artists of the snapshot. -/
theorem artistCounts_map_fst (table : ChartTable) :
    (artistCounts table).map Prod.fst = (table.map (fun e => e.artist)).dedup :=
  map_fst_pair _ _

/-- In a list sorted by `r`, every element of the `take`-prefix is
`r`-related to every element outside that prefix. -/
theorem pairwise_take_rel {α : Type} {r : α → α → Prop} {S : List α}
    (h : List.Pairwise r S) (n : Nat) {x y : α}
    (hx : x ∈ S.take n) (hy : y ∈ S) (hny : y ∉ S.take n) : r x y := by
  have hsplit := List.take_append_drop n S
  have h' : List.Pairwise r (S.take n ++ S.drop n) := by rw [hsplit]; exact h
  have hy' : y ∈ S.take n ++ S.drop n := by rw [hsplit]; exact hy
  rcases List.mem_append.mp hy' with h1 | h2
  · exact absurd h1 hny
  · exact (List.pairwise_append.mp h').2.2 x hx y h2

/-- The sorted grouping has one pair per distinct artist. -/
theorem length_sorted_artistCounts (table : ChartTable) :
    ((artistCounts table).insertionSort artistOrder).length
      = ((table.map (fun e => e.artist)).dedup).length := by
  rw [List.length_insertionSort]
  unfold artistCounts
  rw [List.length_map]

end NaverBlogApp

namespace NaverBlogApp

/-! ### Claim theorems -/

/-- C1: saving a chart with pairwise-distinct ranks and then reading
`/melon-chart` returns exactly the saved entries, sorted by rank
ascending, with nothing surviving from the previous snapshot, whatever
the store held before. -/
theorem save_then_read_roundtrip (chart : List ChartEntry) (prior : ChartTable)
    (h : (chart.map (fun e => e.rank)).Nodup) :
    (melon_chart (save_melon_chart_to_db chart prior)).Perm chart
      ∧ List.Sorted rankLe (melon_chart (save_melon_chart_to_db chart prior)) := by
  rw [save_of_nodup_ranks chart prior h]
  exact ⟨List.perm_insertionSort rankLe chart, List.sorted_insertionSort rankLe chart⟩

/-- Witness for C1: a two-entry chart replaces a seeded store. -/
theorem save_then_read_roundtrip_witness :
    (([⟨2, "b", "B"⟩, ⟨1, "a", "A"⟩] : List ChartEntry).map (fun e => e.rank)).Nodup
      ∧ ((melon_chart
            (save_melon_chart_to_db [⟨2, "b", "B"⟩, ⟨1, "a", "A"⟩] [⟨9, "z", "Z"⟩])).Perm
            [⟨2, "b", "B"⟩, ⟨1, "a", "A"⟩]
          ∧ List.Sorted rankLe
              (melon_chart
                (save_melon_chart_to_db [⟨2, "b", "B"⟩, ⟨1, "a", "A"⟩] [⟨9, "z", "Z"⟩]))) :=
  ⟨by decide,
    save_then_read_roundtrip [⟨2, "b", "B"⟩, ⟨1, "a", "A"⟩] [⟨9, "z", "Z"⟩] (by decide)⟩

/-- C10: after any save, ranks in the store are pairwise distinct; the
stored row for a rank is the last input entry carrying that rank (the
`UNIQUE(ranking)` constraint with `INSERT OR REPLACE` makes later
duplicates overwrite earlier ones); and every stored row comes from the
input.  The save is the only operation writing `melon_chart_data`, so
this is an invariant of the store. -/
theorem save_rank_uniqueness (chart : List ChartEntry) (prior : ChartTable) :
    ((save_melon_chart_to_db chart prior).map (fun e => e.rank)).Nodup
      ∧ (∀ r : Nat,
          (save_melon_chart_to_db chart prior).find? (fun x => x.rank == r)
            = chart.reverse.find? (fun x => x.rank == r))
      ∧ (∀ e ∈ save_melon_chart_to_db chart prior, e ∈ chart) := by
  refine ⟨?_, fun r => ?_, fun e he => ?_⟩
  · exact nodup_ranks_foldl_insertOrReplace chart [] (by simp)
  · unfold save_melon_chart_to_db
    rw [find?_foldl_insertOrReplace]
    simp
  · rcases mem_foldl_insertOrReplace chart [] e he with h | h
    · simp at h
    · exact h

/-- Witness for C10 on an input with a duplicated rank: only the later
entry of rank 1 survives. -/
theorem save_rank_uniqueness_witness :
    ((save_melon_chart_to_db [⟨1, "a", "A"⟩, ⟨1, "b", "B"⟩] []).map
        (fun e => e.rank)).Nodup
      ∧ (save_melon_chart_to_db [⟨1, "a", "A"⟩, ⟨1, "b", "B"⟩] []).find?
          (fun x => x.rank == 1)
          = ([⟨1, "a", "A"⟩, ⟨1, "b", "B"⟩] : List ChartEntry).reverse.find?
              (fun x => x.rank == 1)
      ∧ (⟨1, "b", "B"⟩ : ChartEntry) ∈ save_melon_chart_to_db
          [⟨1, "a", "A"⟩, ⟨1, "b", "B"⟩] []
      ∧ (⟨1, "b", "B"⟩ : ChartEntry) ∈ ([⟨1, "a", "A"⟩, ⟨1, "b", "B"⟩] : List ChartEntry) :=
  ⟨(save_rank_uniqueness [⟨1, "a", "A"⟩, ⟨1, "b", "B"⟩] []).1,
    (save_rank_uniqueness [⟨1, "a", "A"⟩, ⟨1, "b", "B"⟩] []).2.1 1,
    by decide,
    (save_rank_uniqueness [⟨1, "a", "A"⟩, ⟨1, "b", "B"⟩] []).2.2 ⟨1, "b", "B"⟩ (by decide)⟩

/-- C3: a source row is included in the `fetch_melon_chart` result iff its
rank field, after stripping, is a non-empty string of decimal digits; a
row with a non-numeric or missing rank is dropped while all later rows
are still processed, and included rows appear in source order with no
deduplication or re-sorting: the loop equals filtering the rows on the
digit test and mapping each surviving row to its entry. -/
theorem parse_keeps_exactly_digit_ranked_rows_in_order (rows : List RawRow) :
    parseChartRows rows
      = (rows.filter (fun r => pyIsDigit (rowRank r))).map rowEntry :=
  parseChartRows_eq_filter_map rows

/-- C7: every failure outcome of the chart request — an exception
(network error, timeout, parse failure) or a non-200 status — makes
`fetch_melon_chart` return the same empty list, with no partial data. -/
theorem fetch_failure_returns_empty (status : Nat) (rows : List RawRow) :
    fetch_melon_chart .exn = []
      ∧ (status ≠ 200 → fetch_melon_chart (.ok status rows) = []) := by
  refine ⟨rfl, fun h => ?_⟩
  simp [fetch_melon_chart, h]

/-- Witness for C7 at status 404. -/
theorem fetch_failure_returns_empty_witness :
    (404 : Nat) ≠ 200
      ∧ fetch_melon_chart .exn = []
      ∧ fetch_melon_chart (.ok 404 [⟨some "1", some "t", some "a"⟩]) = [] :=
  ⟨by decide, (fetch_failure_returns_empty 404 [⟨some "1", some "t", some "a"⟩]).1,
    (fetch_failure_returns_empty 404 [⟨some "1", some "t", some "a"⟩]).2 (by decide)⟩

/-- C8: every row included in the parse result whose title element is
absent gets the exact placeholder "제목 없음", and one whose artist element
is absent gets the exact placeholder "아티스트 없음". -/
theorem included_row_placeholder_sentinels (rows : List RawRow) (row : RawRow)
    (hmem : row ∈ rows) (hdig : pyIsDigit (rowRank row) = true) :
    rowEntry row ∈ parseChartRows rows
      ∧ (row.title_el = none → (rowEntry row).title = "제목 없음")
      ∧ (row.artist_el = none → (rowEntry row).artist = "아티스트 없음") := by
  refine ⟨?_, fun ht => ?_, fun ha => ?_⟩
  · rw [parseChartRows_eq_filter_map]
    exact List.mem_map_of_mem _ (List.mem_filter.mpr ⟨hmem, hdig⟩)
  · simp [rowEntry, ht]
  · simp [rowEntry, ha]

/-- Witness for C8 on a row with both elements absent. -/
theorem included_row_placeholder_sentinels_witness :
    (⟨some "7", none, none⟩ : RawRow) ∈ [(⟨some "7", none, none⟩ : RawRow)]
      ∧ pyIsDigit (rowRank ⟨some "7", none, none⟩) = true
      ∧ (rowEntry ⟨some "7", none, none⟩ ∈ parseChartRows [⟨some "7", none, none⟩]
          ∧ ((⟨some "7", none, none⟩ : RawRow).title_el = none →
              (rowEntry ⟨some "7", none, none⟩).title = "제목 없음")
          ∧ ((⟨some "7", none, none⟩ : RawRow).artist_el = none →
              (rowEntry ⟨some "7", none, none⟩).artist = "아티스트 없음")) :=
  ⟨by decide, by decide,
    included_row_placeholder_sentinels [⟨some "7", none, none⟩]
      ⟨some "7", none, none⟩ (by decide) (by decide)⟩

/-- C2: when the fetch comes back empty (any fetch failure), the
`/update-chart-db` handler leaves the stored snapshot untouched and a
subsequent `/melon-chart` read returns exactly what it returned before. -/
theorem refresh_on_empty_fetch_is_noop (resp : FetchResponse) (table : ChartTable)
    (h : fetch_melon_chart resp = []) :
    update_chart_db resp table = table
      ∧ melon_chart (update_chart_db resp table) = melon_chart table := by
  have h1 : update_chart_db resp table = table := by
    simp [update_chart_db, h]
  exact ⟨h1, by rw [h1]⟩

/-- Witness for C2: a seeded store survives a failed fetch. -/
theorem refresh_on_empty_fetch_is_noop_witness :
    fetch_melon_chart .exn = []
      ∧ (update_chart_db .exn [⟨1, "A", "X"⟩] = [⟨1, "A", "X"⟩]
          ∧ melon_chart (update_chart_db .exn [⟨1, "A", "X"⟩])
              = melon_chart [⟨1, "A", "X"⟩]) :=
  ⟨by decide, refresh_on_empty_fetch_is_noop .exn [⟨1, "A", "X"⟩] (by decide)⟩

/-- C4: for a non-empty trimmed keyword, `increment_search_count` is an
upsert: with no record present it appends a record with count 1; with
exactly one record present (the `UNIQUE` constraint on `keyword`) it
increments that record's count by 1 and changes nothing else; hence N
sequential calls starting from a store without the keyword leave a
single record with count exactly N. -/
theorem search_count_upsert (keyword : String) (_hk : keyword ≠ "")
    (_ht : pyStrip keyword = keyword) :
    (∀ table : SearchTable, keyword ∉ table.map Prod.fst →
        increment_search_count keyword table = table ++ [(keyword, 1)])
      ∧ (∀ (t1 t2 : SearchTable) (c : Nat),
          keyword ∉ t1.map Prod.fst → keyword ∉ t2.map Prod.fst →
          increment_search_count keyword (t1 ++ (keyword, c) :: t2)
            = t1 ++ (keyword, c + 1) :: t2)
      ∧ (∀ (table : SearchTable) (N : Nat), keyword ∉ table.map Prod.fst →
          1 ≤ N →
          (increment_search_count keyword)^[N] table = table ++ [(keyword, N)]) := by
  refine ⟨increment_insert keyword, increment_update keyword, ?_⟩
  intro table N h hN
  obtain ⟨m, rfl⟩ : ∃ m, N = m + 1 := ⟨N - 1, by omega⟩
  rw [Function.iterate_succ_apply, increment_insert keyword table h,
    increment_iterate_aux keyword table h m 1]
  have : 1 + m = m + 1 := by omega
  rw [this]

/-- Witness for C4: two searches for a fresh keyword yield count 2. -/
theorem search_count_upsert_witness :
    ("lean" : String) ≠ ""
      ∧ pyStrip "lean" = "lean"
      ∧ ("lean" : String) ∉ ([("other", 3)] : SearchTable).map Prod.fst
      ∧ 1 ≤ 2
      ∧ (increment_search_count "lean")^[2] [("other", 3)]
          = [("other", 3)] ++ [("lean", 2)] :=
  ⟨by decide, by decide, by decide, by decide,
    (search_count_upsert "lean" (by decide) (by decide)).2.2
      [("other", 3)] 2 (by decide) (by decide)⟩

/-- C5: `get_artist_count_ranking` groups the snapshot's rows by artist
and returns the top `limit` of the grouping: at most `limit` pairs, and
exactly `min limit (#distinct artists)` of them; the returned artists
are pairwise distinct; each returned pair carries an artist of the
snapshot with the exact number of snapshot rows by that artist; when
`limit` covers all distinct artists, every distinct artist's pair is
returned; every returned pair precedes (count descending, then artist
name ascending) every omitted artist's pair; the output is sorted by
that order; and on the snapshot `[{1,"T1","X"},{2,"T2","X"},{3,"T3","Y"}]`
it returns `[("X",2),("Y",1)]` in that order. -/
theorem artist_ranking_spec (limit : Nat) (table : ChartTable) :
    (get_artist_count_ranking limit table).length ≤ limit
      ∧ (get_artist_count_ranking limit table).length
          = min limit ((table.map (fun e => e.artist)).dedup).length
      ∧ ((get_artist_count_ranking limit table).map Prod.fst).Nodup
      ∧ (∀ p ∈ get_artist_count_ranking limit table,
          p.2 = (table.filter (fun e => e.artist = p.1)).length
            ∧ p.1 ∈ table.map (fun e => e.artist))
      ∧ (∀ a ∈ (table.map (fun e => e.artist)).dedup,
          ((table.map (fun e => e.artist)).dedup).length ≤ limit →
          (a, (table.filter (fun e => e.artist = a)).length)
            ∈ get_artist_count_ranking limit table)
      ∧ (∀ p ∈ get_artist_count_ranking limit table,
          ∀ a ∈ (table.map (fun e => e.artist)).dedup,
          (a, (table.filter (fun e => e.artist = a)).length)
              ∉ get_artist_count_ranking limit table →
          artistOrder p (a, (table.filter (fun e => e.artist = a)).length))
      ∧ List.Sorted artistOrder (get_artist_count_ranking limit table)
      ∧ get_artist_count_ranking 10 [⟨1, "T1", "X"⟩, ⟨2, "T2", "X"⟩, ⟨3, "T3", "Y"⟩]
          = [("X", 2), ("Y", 1)] := by
  refine ⟨?_, ?_, ?_, fun p hp => ?_, fun a ha hlim => ?_,
    fun p hp a ha hnot => ?_, ?_, by decide⟩
  · exact List.length_take_le _ _
  · unfold get_artist_count_ranking
    rw [List.length_take, length_sorted_artistCounts]
  · have hperm : (((artistCounts table).insertionSort artistOrder).map Prod.fst).Perm
        ((artistCounts table).map Prod.fst) :=
      (List.perm_insertionSort artistOrder (artistCounts table)).map Prod.fst
    have hnd : (((artistCounts table).insertionSort artistOrder).map Prod.fst).Nodup := by
      rw [hperm.nodup_iff, artistCounts_map_fst]
      exact List.nodup_dedup _
    exact List.Sublist.nodup (List.Sublist.map Prod.fst (List.take_sublist _ _)) hnd
  · have hp2 : p ∈ artistCounts table :=
      (List.mem_insertionSort artistOrder).mp (List.mem_of_mem_take hp)
    unfold artistCounts at hp2
    obtain ⟨a, ha, hpa⟩ := List.mem_map.mp hp2
    cases hpa
    exact ⟨rfl, List.mem_dedup.mp ha⟩
  · have hmem : (a, (table.filter (fun e => e.artist = a)).length)
        ∈ (artistCounts table).insertionSort artistOrder :=
      (List.mem_insertionSort artistOrder).mpr (List.mem_map_of_mem _ ha)
    unfold get_artist_count_ranking
    rw [List.take_of_length_le (by rw [length_sorted_artistCounts]; exact hlim)]
    exact hmem
  · have hmem : (a, (table.filter (fun e => e.artist = a)).length)
        ∈ (artistCounts table).insertionSort artistOrder :=
      (List.mem_insertionSort artistOrder).mpr (List.mem_map_of_mem _ ha)
    exact pairwise_take_rel (List.sorted_insertionSort artistOrder _) limit hp hmem hnot
  · exact List.Pairwise.sublist (List.take_sublist _ _)
      (List.sorted_insertionSort artistOrder _)

/-- Witness for C5: on the sample snapshot, the pair ("X", 2) is sound
at limit 10, X's pair is returned by completeness at limit 10, and at
limit 1 the returned pair ("X", 2) dominates Y's omitted pair. -/
theorem artist_ranking_spec_witness :
    (("X", 2) : String × Nat)
        ∈ get_artist_count_ranking 10 [⟨1, "T1", "X"⟩, ⟨2, "T2", "X"⟩, ⟨3, "T3", "Y"⟩]
      ∧ (("X", 2).2
            = (([⟨1, "T1", "X"⟩, ⟨2, "T2", "X"⟩, ⟨3, "T3", "Y"⟩] : ChartTable).filter
                (fun e => e.artist = ("X", 2).1)).length
          ∧ ("X", 2).1 ∈ ([⟨1, "T1", "X"⟩, ⟨2, "T2", "X"⟩, ⟨3, "T3", "Y"⟩] : ChartTable).map
              (fun e => e.artist))
      ∧ "X" ∈ (([⟨1, "T1", "X"⟩, ⟨2, "T2", "X"⟩, ⟨3, "T3", "Y"⟩] : ChartTable).map
          (fun e => e.artist)).dedup
      ∧ ((([⟨1, "T1", "X"⟩, ⟨2, "T2", "X"⟩, ⟨3, "T3", "Y"⟩] : ChartTable).map
          (fun e => e.artist)).dedup).length ≤ 10
      ∧ ("X", (([⟨1, "T1", "X"⟩, ⟨2, "T2", "X"⟩, ⟨3, "T3", "Y"⟩] : ChartTable).filter
            (fun e => e.artist = "X")).length)
          ∈ get_artist_count_ranking 10 [⟨1, "T1", "X"⟩, ⟨2, "T2", "X"⟩, ⟨3, "T3", "Y"⟩]
      ∧ (("X", 2) : String × Nat)
          ∈ get_artist_count_ranking 1 [⟨1, "T1", "X"⟩, ⟨2, "T2", "X"⟩, ⟨3, "T3", "Y"⟩]
      ∧ "Y" ∈ (([⟨1, "T1", "X"⟩, ⟨2, "T2", "X"⟩, ⟨3, "T3", "Y"⟩] : ChartTable).map
          (fun e => e.artist)).dedup
      ∧ ("Y", (([⟨1, "T1", "X"⟩, ⟨2, "T2", "X"⟩, ⟨3, "T3", "Y"⟩] : ChartTable).filter
            (fun e => e.artist = "Y")).length)
          ∉ get_artist_count_ranking 1 [⟨1, "T1", "X"⟩, ⟨2, "T2", "X"⟩, ⟨3, "T3", "Y"⟩]
      ∧ artistOrder ("X", 2)
          ("Y", (([⟨1, "T1", "X"⟩, ⟨2, "T2", "X"⟩, ⟨3, "T3", "Y"⟩] : ChartTable).filter
            (fun e => e.artist = "Y")).length) :=
  ⟨by decide,
    (artist_ranking_spec 10 [⟨1, "T1", "X"⟩, ⟨2, "T2", "X"⟩, ⟨3, "T3", "Y"⟩]).2.2.2.1
      ("X", 2) (by decide),
    by decide, by decide,
    (artist_ranking_spec 10 [⟨1, "T1", "X"⟩, ⟨2, "T2", "X"⟩, ⟨3, "T3", "Y"⟩]).2.2.2.2.1
      "X" (by decide) (by decide),
    by decide, by decide, by decide,
    (artist_ranking_spec 1 [⟨1, "T1", "X"⟩, ⟨2, "T2", "X"⟩, ⟨3, "T3", "Y"⟩]).2.2.2.2.2.1
      ("X", 2) (by decide) "Y" (by decide) (by decide)⟩

/-- C6 counterexample: the artist-search is SQLite `LIKE` matching, not
literal substring containment: the query `"_"` returns the row with
artist `"x"` although `"_"` is not a substring of `"x"` (the underscore
acts as a single-character wildcard). -/
theorem artist_search_not_literal_substring :
    artist_search (some "_") [⟨1, "T", "x"⟩] = [⟨1, "T", "x"⟩]
      ∧ ¬ (("_".data) <:+: ("x".data)) :=
  ⟨by decide, by decide⟩

/-- C6 (amended): for every snapshot and query, a blank query (after
stripping) yields the empty result without touching the store, and a
non-blank query yields exactly the stored entries whose artist matches
the SQLite `LIKE` pattern `%query%` — ASCII case-insensitive, with `%`
and `_` inside the query acting as wildcards — ordered by rank
ascending. -/
theorem artist_search_like_semantics (q : Option String) (table : ChartTable) :
    (artist_search q table).Perm
        (if (pyStrip (q.getD "")).data.isEmpty then []
          else table.filter (artistLike (pyStrip (q.getD ""))))
      ∧ List.Sorted rankLe (artist_search q table) := by
  unfold artist_search
  by_cases h : (pyStrip (q.getD "")).data.isEmpty
  · simp [h]
  · simp only [h, Bool.false_eq_true, if_false]
    exact ⟨List.perm_insertionSort rankLe _, List.sorted_insertionSort rankLe _⟩

/-- C9: when either API credential is missing from the environment or
blank after stripping, the blog-search proxy returns empty items and the
fixed non-empty credentials-missing message, and the result does not
depend on the network response at all (no network call is consulted). -/
theorem missing_credentials_short_circuit (envId envSecret : Option String)
    (q : String) (resp resp2 : NaverResponse)
    (h : loadCred envId = "" ∨ loadCred envSecret = "") :
    search_naver_blog (loadCred envId) (loadCred envSecret) q resp
        = { items := [],
            error := some "NAVER API 키가 없습니다. 환경변수로 설정해주세요." }
      ∧ "NAVER API 키가 없습니다. 환경변수로 설정해주세요." ≠ ""
      ∧ search_naver_blog (loadCred envId) (loadCred envSecret) q resp
          = search_naver_blog (loadCred envId) (loadCred envSecret) q resp2 := by
  have hempty : ((loadCred envId).data.isEmpty
      || (loadCred envSecret).data.isEmpty) = true := by
    rcases h with h | h <;> simp [h]
  have h1 : search_naver_blog (loadCred envId) (loadCred envSecret) q resp
      = { items := [],
          error := some "NAVER API 키가 없습니다. 환경변수로 설정해주세요." } := by
    unfold search_naver_blog
    rw [if_pos hempty]
  have h2 : search_naver_blog (loadCred envId) (loadCred envSecret) q resp2
      = { items := [],
          error := some "NAVER API 키가 없습니다. 환경변수로 설정해주세요." } := by
    unfold search_naver_blog
    rw [if_pos hempty]
  exact ⟨h1, by decide, h1.trans h2.symm⟩

/-- Witness for C9: an unset client id short-circuits identically for a
successful response and an exception. -/
theorem missing_credentials_short_circuit_witness :
    (loadCred none = "" ∨ loadCred (some "secret") = "")
      ∧ (search_naver_blog (loadCred none) (loadCred (some "secret")) "q"
            (.ok 200 ["item"])
            = { items := [],
                error := some "NAVER API 키가 없습니다. 환경변수로 설정해주세요." }
          ∧ "NAVER API 키가 없습니다. 환경변수로 설정해주세요." ≠ ""
          ∧ search_naver_blog (loadCred none) (loadCred (some "secret")) "q"
              (.ok 200 ["item"])
              = search_naver_blog (loadCred none) (loadCred (some "secret")) "q"
                  (.exn "boom")) :=
  ⟨Or.inl (by decide),
    missing_credentials_short_circuit none (some "secret") "q"
      (.ok 200 ["item"]) (.exn "boom") (Or.inl (by decide))⟩

end NaverBlogApp
